import Mathlib

/-!
Verification of the `rpgsanta_2022` repository.

The development shallowly embeds the three source files:

* `src/lib.rs` — the `GameData` counter, its bincode byte codec, `room_id`
  and the static `ROOM_DB` table;
* `examples/discord_bot.rs` — the session registry and per-channel actor
  lifecycle, embedded as a small labelled transition system over explicit
  system states;
* `examples/term_game.rs` — the terminal game loop's per-iteration behaviour.

Machine integers are modelled as `Nat` with explicit `% 2 ^ 64` where the
source uses `u64`.  Fallible or panicking operations return `Except`.
-/

set_option autoImplicit false

namespace Rpg

/-! ### `GameData` (src/lib.rs lines 7–30)

`GameData` holds a single `u64` field `message_count`.  `process_input`
ignores its input, bumps the counter (u64 arithmetic, hence the explicit
modulus) and renders the new counter in decimal, exactly as
`format!("{}", self.message_count)` does. -/

def U64MOD : Nat := 2 ^ 64

structure GameData where
  message_count : Nat
deriving DecidableEq

/-- `GameData::default()`: the derived `Default` yields a zero counter. -/
def GameData.default : GameData := { message_count := 0 }

/-- `GameData::process_input` (src/lib.rs lines 26–29). -/
def GameData.process_input (g : GameData) (_input : String) : GameData × String :=
  let n := (g.message_count + 1) % U64MOD
  ({ message_count := n }, Nat.repr n)

/-! ### Byte codec (src/lib.rs lines 12–23)

`bincode::serialize` writes the single `u64` field as eight little-endian
bytes; `bincode::deserialize` reads eight little-endian bytes (failing on a
shorter input).  Bytes are `Nat`s below 256. -/

def natToLE : Nat → Nat → List Nat
  | 0, _ => []
  | w + 1, n => n % 256 :: natToLE w (n / 256)

def leToNat : List Nat → Nat
  | [] => 0
  | b :: bs => b + 256 * leToNat bs

/-- `TryFrom<&GameData> for Vec<u8>`: bincode encoding of the counter. -/
def encode (g : GameData) : List Nat := natToLE 8 g.message_count

/-- `TryFrom<&[u8]> for GameData`: bincode decoding of a byte buffer. -/
def decode (bs : List Nat) : Except String GameData :=
  if bs.length < 8 then Except.error "unexpected end of input"
  else Except.ok { message_count := leToNat (bs.take 8) }

theorem natToLE_length : ∀ (w n : Nat), (natToLE w n).length = w := by
  intro w
  induction w with
  | zero => intro n; rfl
  | succ k ih => intro n; simpa [natToLE] using ih (n / 256)

theorem leToNat_natToLE : ∀ (w n : Nat), n < 256 ^ w → leToNat (natToLE w n) = n := by
  intro w
  induction w with
  | zero =>
    intro n h
    have : n = 0 := Nat.lt_one_iff.mp (by simpa using h)
    simp [this, natToLE, leToNat]
  | succ k ih =>
    intro n h
    have hdiv : n / 256 < 256 ^ k := by
      have h256 : 0 < (256 : Nat) := by decide
      refine (Nat.div_lt_iff_lt_mul h256).mpr ?_
      calc n < 256 ^ (k + 1) := h
        _ = 256 ^ k * 256 := by rw [pow_succ]
    have := ih (n / 256) hdiv
    simp [natToLE, leToNat, this]
    omega

theorem take_of_full_length {α : Type} : ∀ (l : List α) (n : Nat), l.length ≤ n → l.take n = l := by
  intro l
  induction l with
  | nil => intro n _; simp
  | cons x xs ih =>
    intro n h
    cases n with
    | zero => simp at h
    | succ m =>
      have : xs.length ≤ m := Nat.le_of_succ_le_succ h
      simp [List.take, ih m this]

/-! ### `room_id` (src/lib.rs lines 32–62)

`room_id` pattern-matches the byte slice of its input: up to four bytes are
padded with `b'.'` (byte 46) to a length-four big-endian `u32`; five or more
bytes hit `panic!("input too long!")`, and a zero `u32` hits the bare
`panic!()` in the `NonZeroU32::new` match.  The embedding works over the
UTF-8 byte list of the input and returns `Except`, with `.error` standing
for a panic. -/

/-- `u32::from_be_bytes`, generalised to a byte list folded big-endian. -/
def beBytesToNat (bs : List Nat) : Nat := bs.foldl (fun acc b => acc * 256 + b) 0

/-- The `b'.'`-padding of an at-most-four-byte input performed by the match
arms of `room_id`. -/
def dotPad (s : List Nat) : List Nat := s ++ List.replicate (4 - s.length) 46

/-- The shared tail of every non-overflowing `room_id` arm: build the
big-endian `u32` and check it against `NonZeroU32::new`. -/
def mkRoomId (p : List Nat) : Except String Nat :=
  if beBytesToNat p = 0 then Except.error "panicked" else Except.ok (beBytesToNat p)

/-- `room_id` (src/lib.rs lines 50–62). -/
def room_id (s : List Nat) : Except String Nat :=
  match s with
  | [] => mkRoomId [46, 46, 46, 46]
  | [a] => mkRoomId [a, 46, 46, 46]
  | [a, b] => mkRoomId [a, b, 46, 46]
  | [a, b, c] => mkRoomId [a, b, c, 46]
  | [a, b, c, d] => mkRoomId [a, b, c, d]
  | _ => Except.error "input too long!"

/-- `impl Default for RoomID` (src/lib.rs lines 45–49): `room_id("")`. -/
def roomIdDefault : Except String Nat := room_id []

/-! ### `Room` and `ROOM_DB` (src/lib.rs lines 64–109) -/

structure Room where
  id : Nat
  name : String
  description : String

/-- UTF-8 bytes of an ASCII string literal (`str::as_bytes`). -/
def strBytes (s : String) : List Nat := s.toList.map Char.toNat

/-- Lexicographic `≤` on byte lists: the order `derive(PartialOrd, Ord)`
gives Rust strings. -/
def listLeb : List Nat → List Nat → Bool
  | [], _ => true
  | _ :: _, [] => false
  | a :: as, b :: bs => if a < b then true else if b < a then false else listLeb as bs

/-- The derived lexicographic `≤` on `Room`: compare `id`, then `name`,
then `description`. -/
def Room.leb (a b : Room) : Bool :=
  if a.id < b.id then true
  else if b.id < a.id then false
  else if listLeb (strBytes a.name) (strBytes b.name) then
    if listLeb (strBytes b.name) (strBytes a.name) then
      listLeb (strBytes a.description) (strBytes b.description)
    else true
  else false

/-- The `u32` value `room_id` produces for a valid key, used to build the
constant table (the const evaluation in the source cannot panic, see
`room_id_spec`). -/
def rid (bytes : List Nat) : Nat := beBytesToNat (dotPad bytes)

/-- `Room::DEFAULT` (src/lib.rs lines 77–80); `"DEAD"` is bytes
`[68, 69, 65, 68]`. -/
def Room.DEFAULT : Room := { id := rid [68, 69, 65, 68], name := "Default", description := "Default" }

/-- `ROOM_DB` (src/lib.rs lines 82–109).  Each key is the ASCII byte list
of the string literal in the source. -/
def ROOM_DB : List Room := [
  { Room.DEFAULT with id := rid [99, 95, 72, 56], name := "Shrine of Resurrection" },
  { Room.DEFAULT with id := rid [100, 49, 48, 49], name := "entry" },
  { Room.DEFAULT with id := rid [100, 49, 48, 50], name := "deadend" },
  { Room.DEFAULT with id := rid [100, 49, 48, 51], name := "deadend" },
  { Room.DEFAULT with id := rid [100, 49, 48, 52], name := "hall-north" },
  { Room.DEFAULT with id := rid [100, 49, 48, 53], name := "room" },
  { Room.DEFAULT with id := rid [100, 49, 48, 54], name := "room" },
  { Room.DEFAULT with id := rid [100, 49, 48, 55], name := "room" },
  { Room.DEFAULT with id := rid [100, 49, 48, 56], name := "room" },
  { Room.DEFAULT with id := rid [100, 49, 48, 57], name := "room" },
  { Room.DEFAULT with id := rid [100, 49, 49, 48], name := "room" },
  { Room.DEFAULT with id := rid [100, 49, 49, 49], name := "hall" },
  { Room.DEFAULT with id := rid [100, 49, 49, 50], name := "hall-turn-west" },
  { Room.DEFAULT with id := rid [100, 49, 49, 51], name := "stairs-down" },
  { Room.DEFAULT with id := rid [100, 49, 49, 52], name := "mini-treasure?" },
  { Room.DEFAULT with id := rid [100, 49, 49, 53], name := "sage?" },
  { Room.DEFAULT with id := rid [100, 49, 49, 54], name := "hall-turn-north" },
  { Room.DEFAULT with id := rid [100, 49, 49, 55], name := "boss-fight" },
  { Room.DEFAULT with id := rid [100, 49, 49, 56], name := "the-cape" },
  { Room.DEFAULT with id := rid [119, 95, 72, 52], name := "Zakros Isle" },
  { Room.DEFAULT with id := rid [119, 95, 72, 56], name := "Firros" },
  { Room.DEFAULT with id := rid [119, 95, 73, 52], name := "Baikal" },
  { Room.DEFAULT with id := rid [119, 95, 73, 53], name := "Baikal" },
  { Room.DEFAULT with id := rid [119, 95, 73, 54], name := "Torshavn" },
  { Room.DEFAULT with id := rid [119, 95, 73, 55], name := "Torshavn" },
  { Room.DEFAULT with id := rid [119, 95, 73, 56], name := "Torshavn" }]

/-- `slice::is_sorted` under the derived `Room` ordering, as checked by the
`test_room_db_sorted` test (consecutive pairs are `≤`). -/
def roomsSortedB : List Room → Bool
  | [] => true
  | [_] => true
  | a :: b :: rest => Room.leb a b && roomsSortedB (b :: rest)

/-- Pairwise distinctness of a `Nat` list, as checked (via `HashSet` size)
by the `test_all_room_ids_different` test. -/
def natsDistinctB : List Nat → Bool
  | [] => true
  | x :: rest => (!(rest.contains x)) && natsDistinctB rest

/-! ### `term_game.rs` main loop, one iteration (lines 29–48)

Each pass reads a line, runs `process_input`, prints the response, encodes
the state and calls `store_profile_bytes(..).unwrap()`.  The bincode
encoding of `GameData` is total, so the only I/O outcome that matters is
the snapshot write: on failure `unwrap` panics, ending the whole program. -/

inductive LoopOutcome
  | next (g : GameData)
  | panicked
deriving DecidableEq

/-- One iteration of the `term_game` loop: resulting control flow and the
response text printed for this input.  `storeOk` is the outcome of
`store_profile_bytes`. -/
def term_game_iteration (g : GameData) (input : String) (storeOk : Bool) : LoopOutcome × String :=
  let p := g.process_input input
  (if storeOk then LoopOutcome.next p.1 else LoopOutcome.panicked, p.2)

/-- `term_game.rs` lines 10–23: the initial state is decoded from the
profile bytes; a read miss yields `Vec::default()` (empty bytes) and any
decode failure falls back to `GameData::default()`. -/
def term_game_initial (loaded : Option (List Nat)) : GameData :=
  match decode (loaded.getD []) with
  | Except.ok g => g
  | Except.error _ => GameData.default

/-! ### The session registry and actor lifecycle (examples/discord_bot.rs)

`TextBot::message` and the per-channel session task are embedded as a
labelled transition system.  A system state holds

* the registry map (`sessions: HashMap<ChannelId, Sender<String>>`),
  modelled as a function from channel to the identifier of the live actor
  whose mailbox the stored `Sender` feeds;
* the actors ever spawned (append-only list indexed by actor id), each
  with its channel, mailbox contents, log of processed messages, log of
  produced responses, game state, and lifecycle status;
* the in-flight `message` event handlers ("dispatches"), each a small
  program counter over the read-check / write-recheck protocol;
* the on-disk snapshot area (`save_data`), which — matching the two `TODO`
  comments at lines 106 and 145 of the source — no transition ever reads
  or writes.

Lock-based atomicity is reflected by step granularity: everything a
dispatch does while holding the `RwLock` write guard (re-check plus either
enqueue or spawn-insert) is one step, and the whole drain sequence
(`recver.close()`, the drain loop, `writer.remove`) is one step, because
the session task holds the write guard across it (lines 129–144).  The
read-path lookup-and-send is likewise one step: the read guard is held
across the `send`, so it cannot interleave with any write-guard section.
A producer facing a full bounded mailbox simply has no enabled step: it
stays suspended with its message intact (tokio `send().await`
backpressure), rather than dropping it or erring. -/

abbrev ChannelId := Nat
abbrev Msg := String

/-- Mailbox capacity: `mpsc_channel(5)` at line 103. -/
def MAILBOX_CAP : Nat := 5

/-- Idle bound in seconds: `TEN_MIN` at line 112 is `Duration::new(60 * 10, 0)`. -/
def TEN_MIN_SECS : Nat := 60 * 10

inductive Status
  | active
  | pendingDrain
  | terminated
deriving DecidableEq

structure Actor where
  channel : ChannelId
  mailbox : List Msg
  processed : List Msg
  outputs : List String
  game : GameData
  status : Status
deriving DecidableEq

/-- Program counter of one in-flight `TextBot::message` call. -/
inductive Pc
  | start
  | sawMiss
  | done
deriving DecidableEq

structure Dispatch where
  channel : ChannelId
  text : Msg
  pc : Pc
deriving DecidableEq

structure Sys where
  registry : ChannelId → Option Nat
  actors : List Actor
  dispatches : List Dispatch
  disk : ChannelId → Option (List Nat)

def setActor (s : Sys) (aid : Nat) (a : Actor) : Sys :=
  { s with actors := s.actors.set aid a }

def setDisp (s : Sys) (i : Nat) (d : Dispatch) : Sys :=
  { s with dispatches := s.dispatches.set i d }

def setReg (s : Sys) (c : ChannelId) (v : Option Nat) : Sys :=
  { s with registry := fun c' => if c' = c then v else s.registry c' }

/-- The actor spawned by the `Entry::Vacant` branch (lines 102–153): fresh
mailbox already holding the triggering message, and — per the `TODO` at
line 106 — the default game state, regardless of what is on disk. -/
def newActor (c : ChannelId) (t : Msg) : Actor :=
  { channel := c, mailbox := [t], processed := [], outputs := [],
    game := GameData.default, status := Status.active }

/-- The drain loop of the session task (lines 131–143): process every
remaining mailbox message in arrival order with the same per-message body
as the active loop, returning the final game state and the responses. -/
def drainRun (g : GameData) : List Msg → GameData × List String
  | [] => (g, [])
  | m :: rest =>
    let p := g.process_input m
    let r := drainRun p.1 rest
    (r.1, p.2 :: r.2)

/-- Step labels.  The `Bool`s on `process` are the outcomes of the two
fire-and-forget I/O calls of the loop body (`broadcast_typing` and `say`);
they are part of the label, not the state change, because failures are
only logged. -/
inductive Label
  | arrive (c : ChannelId) (t : Msg)
  | fastHit (i : Nat)
  | fastHitClosed (i : Nat)
  | fastMiss (i : Nat)
  | writeHit (i : Nat)
  | writeHitClosed (i : Nat)
  | create (i : Nat)
  | process (aid : Nat) (typingOk sayOk : Bool)
  | timeout (aid : Nat)
  | drain (aid : Nat)

/-- One transition of the registry/actor system. -/
inductive Step : Label → Sys → Sys → Prop
  /-- A new inbound event enters `TextBot::message` (line 59). -/
  | arrive (s : Sys) (c : ChannelId) (t : Msg) :
      Step (Label.arrive c t) s
        { s with dispatches := s.dispatches ++ [{ channel := c, text := t, pc := Pc.start }] }
  /-- Read path, entry present, mailbox open: enqueue (lines 79–85).
      Requires a free mailbox slot; a full mailbox leaves the caller
      suspended (no step). -/
  | fastHit (s : Sys) (i : Nat) (d : Dispatch) (aid : Nat) (a : Actor)
      (hd : s.dispatches.get? i = some d) (hpc : d.pc = Pc.start)
      (hr : s.registry d.channel = some aid)
      (ha : s.actors.get? aid = some a) (hopen : a.status ≠ Status.terminated)
      (hcap : a.mailbox.length < MAILBOX_CAP) :
      Step (Label.fastHit i) s
        (setDisp (setActor s aid { a with mailbox := a.mailbox ++ [d.text] }) i
          { d with pc := Pc.done })
  /-- Read path, entry present but the receiver is closed: the send fails,
      the error is logged and the handler returns (lines 83–85). -/
  | fastHitClosed (s : Sys) (i : Nat) (d : Dispatch) (aid : Nat) (a : Actor)
      (hd : s.dispatches.get? i = some d) (hpc : d.pc = Pc.start)
      (hr : s.registry d.channel = some aid)
      (ha : s.actors.get? aid = some a) (hclosed : a.status = Status.terminated) :
      Step (Label.fastHitClosed i) s (setDisp s i { d with pc := Pc.done })
  /-- Read path miss: drop the read guard, go acquire the write guard
      (lines 86–91). -/
  | fastMiss (s : Sys) (i : Nat) (d : Dispatch)
      (hd : s.dispatches.get? i = some d) (hpc : d.pc = Pc.start)
      (hr : s.registry d.channel = none) :
      Step (Label.fastMiss i) s (setDisp s i { d with pc := Pc.sawMiss })
  /-- Write path, `Entry::Occupied`: a racing caller created the entry
      between the read check and now; enqueue into it (lines 93–101). -/
  | writeHit (s : Sys) (i : Nat) (d : Dispatch) (aid : Nat) (a : Actor)
      (hd : s.dispatches.get? i = some d) (hpc : d.pc = Pc.sawMiss)
      (hr : s.registry d.channel = some aid)
      (ha : s.actors.get? aid = some a) (hopen : a.status ≠ Status.terminated)
      (hcap : a.mailbox.length < MAILBOX_CAP) :
      Step (Label.writeHit i) s
        (setDisp (setActor s aid { a with mailbox := a.mailbox ++ [d.text] }) i
          { d with pc := Pc.done })
  /-- Write path, `Entry::Occupied` with a closed receiver: send fails,
      logged (lines 96–100). -/
  | writeHitClosed (s : Sys) (i : Nat) (d : Dispatch) (aid : Nat) (a : Actor)
      (hd : s.dispatches.get? i = some d) (hpc : d.pc = Pc.sawMiss)
      (hr : s.registry d.channel = some aid)
      (ha : s.actors.get? aid = some a) (hclosed : a.status = Status.terminated) :
      Step (Label.writeHitClosed i) s (setDisp s i { d with pc := Pc.done })
  /-- Write path, `Entry::Vacant` (lines 102–153): make a channel, spawn
      the session task with the default game state, send the first
      message, insert the sender.  All under the write guard, hence one
      step.  The new actor's id is the next free index. -/
  | create (s : Sys) (i : Nat) (d : Dispatch)
      (hd : s.dispatches.get? i = some d) (hpc : d.pc = Pc.sawMiss)
      (hr : s.registry d.channel = none) :
      Step (Label.create i) s
        (setDisp
          (setReg { s with actors := s.actors ++ [newActor d.channel d.text] }
            d.channel (some s.actors.length))
          i { d with pc := Pc.done })
  /-- Active loop body (lines 113–127): receive the head message,
      fire-and-forget a typing indicator, run `process_input`, try to
      `say` the response.  Both I/O outcomes only get logged, so the
      resulting state does not depend on them. -/
  | process (s : Sys) (aid : Nat) (a : Actor) (m : Msg) (rest : List Msg)
      (typingOk sayOk : Bool)
      (ha : s.actors.get? aid = some a) (hact : a.status = Status.active)
      (hmb : a.mailbox = m :: rest) :
      Step (Label.process aid typingOk sayOk) s
        (setActor s aid
          { a with
            mailbox := rest
            processed := a.processed ++ [m]
            outputs := a.outputs ++ [(a.game.process_input m).2]
            game := (a.game.process_input m).1 })
  /-- The ten-minute idle timeout fires (lines 112–115): the loop exits and
      the task goes to acquire the write guard.  Until it gets the guard,
      dispatch fast paths may still enqueue. -/
  | timeout (s : Sys) (aid : Nat) (a : Actor)
      (ha : s.actors.get? aid = some a) (hact : a.status = Status.active) :
      Step (Label.timeout aid) s (setActor s aid { a with status := Status.pendingDrain })
  /-- Shutdown under the write guard (lines 128–146): close the mailbox,
      drain it fully with the same per-message body, then remove the
      registry entry.  Nothing is written to disk — line 145 is only a
      `TODO` comment. -/
  | drain (s : Sys) (aid : Nat) (a : Actor)
      (ha : s.actors.get? aid = some a) (hact : a.status = Status.pendingDrain) :
      Step (Label.drain aid) s
        (setReg
          (setActor s aid
            { a with
              mailbox := []
              processed := a.processed ++ a.mailbox
              outputs := a.outputs ++ (drainRun a.game a.mailbox).2
              game := (drainRun a.game a.mailbox).1
              status := Status.terminated })
          a.channel none)

/-- Initial system: empty registry (`TextBot::default()`), no actors, no
in-flight handlers, and an arbitrary initial disk. -/
def Sys.init (d : ChannelId → Option (List Nat)) : Sys :=
  { registry := fun _ => none, actors := [], dispatches := [], disk := d }

inductive Reach : Sys → Prop
  | init (d : ChannelId → Option (List Nat)) : Reach (Sys.init d)
  | step {l : Label} {s s' : Sys} : Reach s → Step l s s' → Reach s'

/-! ### List access helpers -/

theorem lget_some_lt {α : Type} : ∀ (l : List α) (i : Nat) (a : α),
    l.get? i = some a → i < l.length := by
  intro l
  induction l with
  | nil => intro i a h; cases h
  | cons x xs ih =>
    intro i a h
    cases i with
    | zero => simp
    | succ n => exact Nat.succ_lt_succ (ih n a h)

theorem lget_set_self {α : Type} : ∀ (l : List α) (i : Nat) (a : α),
    i < l.length → (l.set i a).get? i = some a := by
  intro l
  induction l with
  | nil => intro i a h; simp at h
  | cons x xs ih =>
    intro i a h
    cases i with
    | zero => rfl
    | succ n => exact ih n a (Nat.lt_of_succ_lt_succ h)

theorem lget_set_ne {α : Type} : ∀ (l : List α) (i j : Nat) (a : α),
    j ≠ i → (l.set i a).get? j = l.get? j := by
  intro l
  induction l with
  | nil => intro i j a _; rfl
  | cons x xs ih =>
    intro i j a h
    cases i with
    | zero =>
      cases j with
      | zero => exact absurd rfl h
      | succ m => rfl
    | succ n =>
      cases j with
      | zero => rfl
      | succ m => exact ih n m a (fun e => h (by rw [e]))

theorem lget_append_lt {α : Type} : ∀ (l : List α) (x : α) (i : Nat),
    i < l.length → (l ++ [x]).get? i = l.get? i := by
  intro l
  induction l with
  | nil => intro x i h; simp at h
  | cons y ys ih =>
    intro x i h
    cases i with
    | zero => rfl
    | succ n => exact ih x n (Nat.lt_of_succ_lt_succ h)

theorem lget_append_self {α : Type} : ∀ (l : List α) (x : α),
    (l ++ [x]).get? l.length = some x := by
  intro l
  induction l with
  | nil => intro x; rfl
  | cons y ys ih => intro x; exact ih x

theorem lget_append_cases {α : Type} : ∀ (l : List α) (x : α) (i : Nat) (b : α),
    (l ++ [x]).get? i = some b → l.get? i = some b ∨ (i = l.length ∧ b = x) := by
  intro l
  induction l with
  | nil =>
    intro x i b h
    cases i with
    | zero =>
      right
      refine ⟨rfl, ?_⟩
      injection h with h
      exact h.symm
    | succ n => cases h
  | cons y ys ih =>
    intro x i b h
    cases i with
    | zero => left; exact h
    | succ n =>
      rcases ih x n b h with h1 | ⟨h2, h3⟩
      · left; exact h1
      · right; exact ⟨by rw [h2]; rfl, h3⟩

/-! ### Projection lemmas for the state updaters -/

theorem setActor_actors (s : Sys) (aid : Nat) (a : Actor) :
    (setActor s aid a).actors = s.actors.set aid a := rfl

theorem setActor_registry (s : Sys) (aid : Nat) (a : Actor) :
    (setActor s aid a).registry = s.registry := rfl

theorem setDisp_actors (s : Sys) (i : Nat) (d : Dispatch) :
    (setDisp s i d).actors = s.actors := rfl

theorem setDisp_registry (s : Sys) (i : Nat) (d : Dispatch) :
    (setDisp s i d).registry = s.registry := rfl

theorem setReg_actors (s : Sys) (c : ChannelId) (v : Option Nat) :
    (setReg s c v).actors = s.actors := rfl

theorem setReg_registry (s : Sys) (c : ChannelId) (v : Option Nat) (c' : ChannelId) :
    (setReg s c v).registry c' = if c' = c then v else s.registry c' := rfl

/-! ### The core invariant

`liveAt s aid c` says actor `aid` exists, serves channel `c` and has not
terminated.  The invariant couples the registry to the live actors: an
entry for `c` exists precisely when `c` has a live actor, and then it
names exactly that actor's mailbox.  `CapInv` bounds every mailbox by the
channel capacity; `TermInv` says terminated actors drained fully. -/

def liveAt (s : Sys) (aid : Nat) (c : ChannelId) : Prop :=
  ∃ a, s.actors.get? aid = some a ∧ a.channel = c ∧ a.status ≠ Status.terminated

def RegInv (s : Sys) : Prop :=
  ∀ c aid, s.registry c = some aid ↔ liveAt s aid c

def CapInv (s : Sys) : Prop :=
  ∀ aid a, s.actors.get? aid = some a → a.mailbox.length ≤ MAILBOX_CAP

def TermInv (s : Sys) : Prop :=
  ∀ aid a, s.actors.get? aid = some a → a.status = Status.terminated → a.mailbox = []

def Inv (s : Sys) : Prop := RegInv s ∧ CapInv s ∧ TermInv s

theorem liveAt_setActor_same (s : Sys) (aid : Nat) (a a' : Actor)
    (ha : s.actors.get? aid = some a) (hch : a'.channel = a.channel)
    (hst : (a'.status = Status.terminated) ↔ (a.status = Status.terminated)) :
    ∀ j c, liveAt (setActor s aid a') j c ↔ liveAt s j c := by
  intro j c
  have hlen : aid < s.actors.length := lget_some_lt _ _ _ ha
  by_cases hj : j = aid
  · subst hj
    constructor
    · rintro ⟨b, hb, hbc, hbs⟩
      rw [setActor_actors, lget_set_self _ _ _ hlen] at hb
      injection hb with hb
      subst hb
      exact ⟨a, ha, by rw [← hch, hbc], fun h => hbs (hst.mpr h)⟩
    · rintro ⟨b, hb, hbc, hbs⟩
      rw [ha] at hb
      injection hb with hb
      subst hb
      refine ⟨a', ?_, by rw [hch, hbc], fun h => hbs (hst.mp h)⟩
      rw [setActor_actors]
      exact lget_set_self _ _ _ hlen
  · constructor
    · rintro ⟨b, hb, hbc, hbs⟩
      rw [setActor_actors, lget_set_ne _ _ _ _ hj] at hb
      exact ⟨b, hb, hbc, hbs⟩
    · rintro ⟨b, hb, hbc, hbs⟩
      refine ⟨b, ?_, hbc, hbs⟩
      rw [setActor_actors, lget_set_ne _ _ _ _ hj]
      exact hb

/-- Enqueueing into a live actor's mailbox preserves the invariant. -/
theorem enqueue_inv (s : Sys) (aid : Nat) (a : Actor) (t : Msg)
    (ha : s.actors.get? aid = some a) (hopen : a.status ≠ Status.terminated)
    (hcap : a.mailbox.length < MAILBOX_CAP) (hI : Inv s) :
    Inv (setActor s aid { a with mailbox := a.mailbox ++ [t] }) := by
  obtain ⟨hReg, hCap, hTerm⟩ := hI
  have htr := liveAt_setActor_same s aid a { a with mailbox := a.mailbox ++ [t] } ha rfl Iff.rfl
  refine ⟨?_, ?_, ?_⟩
  · intro c j
    exact (hReg c j).trans (htr j c).symm
  · intro j b hb
    rw [setActor_actors] at hb
    by_cases hj : j = aid
    · subst hj
      rw [lget_set_self _ _ _ (lget_some_lt _ _ _ ha)] at hb
      injection hb with hb
      subst hb
      simpa using hcap
    · rw [lget_set_ne _ _ _ _ hj] at hb
      exact hCap j b hb
  · intro j b hb hterm
    rw [setActor_actors] at hb
    by_cases hj : j = aid
    · subst hj
      rw [lget_set_self _ _ _ (lget_some_lt _ _ _ ha)] at hb
      injection hb with hb
      subst hb
      exact absurd hterm hopen
    · rw [lget_set_ne _ _ _ _ hj] at hb
      exact hTerm j b hb hterm

/-- Replacing a live actor by a live actor on the same channel with a
mailbox no longer than before preserves the invariant (active-loop body
and the timeout transition). -/
theorem update_live_inv (s : Sys) (aid : Nat) (a a' : Actor)
    (ha : s.actors.get? aid = some a) (hch : a'.channel = a.channel)
    (ht1 : a'.status ≠ Status.terminated) (ht2 : a.status ≠ Status.terminated)
    (hlen : a'.mailbox.length ≤ a.mailbox.length) (hI : Inv s) :
    Inv (setActor s aid a') := by
  obtain ⟨hReg, hCap, hTerm⟩ := hI
  have htr := liveAt_setActor_same s aid a a' ha hch
    ⟨fun h => absurd h ht1, fun h => absurd h ht2⟩
  refine ⟨?_, ?_, ?_⟩
  · intro c j
    exact (hReg c j).trans (htr j c).symm
  · intro j b hb
    rw [setActor_actors] at hb
    by_cases hj : j = aid
    · subst hj
      rw [lget_set_self _ _ _ (lget_some_lt _ _ _ ha)] at hb
      injection hb with hb
      subst hb
      exact Nat.le_trans hlen (hCap j a ha)
    · rw [lget_set_ne _ _ _ _ hj] at hb
      exact hCap j b hb
  · intro j b hb hterm
    rw [setActor_actors] at hb
    by_cases hj : j = aid
    · subst hj
      rw [lget_set_self _ _ _ (lget_some_lt _ _ _ ha)] at hb
      injection hb with hb
      subst hb
      exact absurd hterm ht1
    · rw [lget_set_ne _ _ _ _ hj] at hb
      exact hTerm j b hb hterm

theorem liveAt_setActor_other_channel (s : Sys) (aid : Nat) (a aT : Actor)
    (ha : s.actors.get? aid = some a) (hch : aT.channel = a.channel)
    (c : ChannelId) (hc : c ≠ a.channel) (j : Nat) :
    liveAt (setActor s aid aT) j c ↔ liveAt s j c := by
  by_cases hj : j = aid
  · subst hj
    constructor
    · rintro ⟨b, hb, hbc, hbs⟩
      rw [setActor_actors, lget_set_self _ _ _ (lget_some_lt _ _ _ ha)] at hb
      injection hb with hb
      subst hb
      exact absurd (hbc.symm.trans hch) hc
    · rintro ⟨b, hb, hbc, hbs⟩
      rw [ha] at hb
      injection hb with hb
      subst hb
      exact absurd hbc.symm hc
  · constructor
    · rintro ⟨b, hb, hbc, hbs⟩
      rw [setActor_actors, lget_set_ne _ _ _ _ hj] at hb
      exact ⟨b, hb, hbc, hbs⟩
    · rintro ⟨b, hb, hbc, hbs⟩
      refine ⟨b, ?_, hbc, hbs⟩
      rw [setActor_actors, lget_set_ne _ _ _ _ hj]
      exact hb

/-- Terminating a live actor and removing its registry entry, in one
exclusive-access step, preserves the invariant (the drain transition). -/
theorem retire_inv (s : Sys) (aid : Nat) (a aT : Actor)
    (ha : s.actors.get? aid = some a) (halive : a.status ≠ Status.terminated)
    (hch : aT.channel = a.channel) (hterm : aT.status = Status.terminated)
    (hmb : aT.mailbox = []) (hI : Inv s) :
    Inv (setReg (setActor s aid aT) a.channel none) := by
  obtain ⟨hReg, hCap, hTerm⟩ := hI
  have hregc : s.registry a.channel = some aid := (hReg a.channel aid).mpr ⟨a, ha, rfl, halive⟩
  refine ⟨?_, ?_, ?_⟩
  · intro c j
    rw [setReg_registry, setActor_registry]
    by_cases hc : c = a.channel
    · rw [if_pos hc]
      constructor
      · intro h; exact Option.noConfusion h
      · rintro ⟨b, hb, hbc, hbs⟩
        rw [setReg_actors, setActor_actors] at hb
        by_cases hj : j = aid
        · subst hj
          rw [lget_set_self _ _ _ (lget_some_lt _ _ _ ha)] at hb
          injection hb with hb
          subst hb
          exact absurd hterm hbs
        · rw [lget_set_ne _ _ _ _ hj] at hb
          have : s.registry c = some j := (hReg c j).mpr ⟨b, hb, hbc, hbs⟩
          rw [hc, hregc] at this
          injection this with this
          exact absurd this.symm hj
    · rw [if_neg hc]
      exact (hReg c j).trans
        (liveAt_setActor_other_channel s aid a aT ha hch c hc j).symm
  · intro j b hb
    rw [setReg_actors, setActor_actors] at hb
    by_cases hj : j = aid
    · subst hj
      rw [lget_set_self _ _ _ (lget_some_lt _ _ _ ha)] at hb
      injection hb with hb
      subst hb
      rw [hmb]
      exact Nat.zero_le _
    · rw [lget_set_ne _ _ _ _ hj] at hb
      exact hCap j b hb
  · intro j b hb _
    rw [setReg_actors, setActor_actors] at hb
    by_cases hj : j = aid
    · subst hj
      rw [lget_set_self _ _ _ (lget_some_lt _ _ _ ha)] at hb
      injection hb with hb
      subst hb
      exact hmb
    · rw [lget_set_ne _ _ _ _ hj] at hb
      exact hTerm j b hb (by assumption)

/-- The `Entry::Vacant` spawn-and-insert preserves the invariant. -/
theorem create_inv (s : Sys) (c0 : ChannelId) (t : Msg)
    (hr : s.registry c0 = none) (hI : Inv s) :
    Inv (setReg { s with actors := s.actors ++ [newActor c0 t] } c0 (some s.actors.length)) := by
  obtain ⟨hReg, hCap, hTerm⟩ := hI
  refine ⟨?_, ?_, ?_⟩
  · intro c j
    rw [setReg_registry]
    by_cases hc : c = c0
    · subst hc
      rw [if_pos rfl]
      constructor
      · intro h
        injection h with h
        subst h
        refine ⟨newActor c t, ?_, rfl, ?_⟩
        · exact lget_append_self s.actors (newActor c t)
        · intro e; exact Status.noConfusion e
      · rintro ⟨b, hb, hbc, hbs⟩
        rcases lget_append_cases s.actors (newActor c t) j b hb with h1 | ⟨h2, h3⟩
        · have : s.registry c = some j := (hReg c j).mpr ⟨b, h1, hbc, hbs⟩
          rw [hr] at this
          exact Option.noConfusion this
        · rw [h2]
    · rw [if_neg hc]
      refine (hReg c j).trans ?_
      constructor
      · rintro ⟨b, hb, hbc, hbs⟩
        refine ⟨b, ?_, hbc, hbs⟩
        exact (lget_append_lt s.actors (newActor c0 t) j (lget_some_lt _ _ _ hb)).trans hb
      · rintro ⟨b, hb, hbc, hbs⟩
        rcases lget_append_cases s.actors (newActor c0 t) j b hb with h1 | ⟨h2, h3⟩
        · exact ⟨b, h1, hbc, hbs⟩
        · exfalso
          rw [h3] at hbc
          exact hc hbc.symm
  · intro j b hb
    rcases lget_append_cases s.actors (newActor c0 t) j b hb with h1 | ⟨h2, h3⟩
    · exact hCap j b h1
    · rw [h3]
      exact (by decide : (1 : Nat) ≤ MAILBOX_CAP)
  · intro j b hb hterm
    rcases lget_append_cases s.actors (newActor c0 t) j b hb with h1 | ⟨h2, h3⟩
    · exact hTerm j b h1 hterm
    · rw [h3] at hterm
      exact Status.noConfusion hterm

/-- Every transition preserves the invariant. -/
theorem step_inv {l : Label} {s s' : Sys} (h : Step l s s') (hI : Inv s) : Inv s' := by
  cases h with
  | arrive _ c t => exact hI
  | fastHit _ i d aid a hd hpc hr ha hopen hcap => exact enqueue_inv _ aid a d.text ha hopen hcap hI
  | fastHitClosed _ i d aid a hd hpc hr ha hclosed => exact hI
  | fastMiss _ i d hd hpc hr => exact hI
  | writeHit _ i d aid a hd hpc hr ha hopen hcap => exact enqueue_inv _ aid a d.text ha hopen hcap hI
  | writeHitClosed _ i d aid a hd hpc hr ha hclosed => exact hI
  | create _ i d hd hpc hr => exact create_inv _ d.channel d.text hr hI
  | process _ aid a m rest typingOk sayOk ha hact hmb =>
    refine update_live_inv _ aid a _ ha rfl ?_ ?_ ?_ hI
    · show a.status ≠ Status.terminated
      rw [hact]
      exact fun e => Status.noConfusion e
    · rw [hact]
      exact fun e => Status.noConfusion e
    · show rest.length ≤ a.mailbox.length
      rw [hmb]
      exact Nat.le_succ _
  | timeout _ aid a ha hact =>
    refine update_live_inv _ aid a _ ha rfl ?_ ?_ ?_ hI
    · show Status.pendingDrain ≠ Status.terminated
      exact fun e => Status.noConfusion e
    · rw [hact]
      exact fun e => Status.noConfusion e
    · exact Nat.le_refl _
  | drain _ aid a ha hact =>
    refine retire_inv _ aid a _ ha ?_ rfl rfl rfl hI
    rw [hact]
    exact fun e => Status.noConfusion e

theorem inv_init (d : ChannelId → Option (List Nat)) : Inv (Sys.init d) := by
  refine ⟨?_, ?_, ?_⟩
  · intro c aid
    constructor
    · intro h
      exact Option.noConfusion h
    · rintro ⟨a, ha, _, _⟩
      exact Option.noConfusion ha
  · intro aid a ha
    exact Option.noConfusion ha
  · intro aid a ha _
    exact Option.noConfusion ha

/-- The coupling invariant holds in every reachable state. -/
theorem inv_reach {s : Sys} (h : Reach s) : Inv s := by
  induction h with
  | init d => exact inv_init d
  | step hr hst ih => exact step_inv hst ih

/-! ### A concrete run

Channel 1 starts with an empty disk.  A first message `"look"` misses the
registry, upgrades to the write guard and spawns the session; a second
message `"go"` takes the fast path into the live mailbox; the actor
processes `"look"` (with both fire-and-forget I/O calls failing), the
idle timeout fires, and the drain processes the still-buffered `"go"`
before the entry is removed.  These states feed the witnesses below. -/

def exC : ChannelId := 1

def exDisk0 : ChannelId → Option (List Nat) := fun _ => none

def exS0 : Sys := Sys.init exDisk0

def exS1 : Sys :=
  { exS0 with dispatches := exS0.dispatches ++ [{ channel := exC, text := "look", pc := Pc.start }] }

def exS2 : Sys := setDisp exS1 0 { channel := exC, text := "look", pc := Pc.sawMiss }

def exS3 : Sys :=
  setDisp (setReg { exS2 with actors := exS2.actors ++ [newActor exC "look"] } exC (some 0)) 0
    { channel := exC, text := "look", pc := Pc.done }

def exS4 : Sys :=
  { exS3 with dispatches := exS3.dispatches ++ [{ channel := exC, text := "go", pc := Pc.start }] }

def exA1 : Actor :=
  { channel := exC, mailbox := ["look"], processed := [], outputs := [],
    game := GameData.default, status := Status.active }

def exA2 : Actor :=
  { channel := exC, mailbox := ["look", "go"], processed := [], outputs := [],
    game := GameData.default, status := Status.active }

def exA3 : Actor :=
  { channel := exC, mailbox := ["go"], processed := ["look"], outputs := ["1"],
    game := { message_count := 1 }, status := Status.active }

def exA4 : Actor :=
  { channel := exC, mailbox := ["go"], processed := ["look"], outputs := ["1"],
    game := { message_count := 1 }, status := Status.pendingDrain }

def exA5 : Actor :=
  { channel := exC, mailbox := [], processed := ["look", "go"], outputs := ["1", "2"],
    game := { message_count := 2 }, status := Status.terminated }

def exS5 : Sys := setDisp (setActor exS4 0 exA2) 1 { channel := exC, text := "go", pc := Pc.done }

def exS6 : Sys := setActor exS5 0 exA3

def exS7 : Sys := setActor exS6 0 exA4

def exS8 : Sys := setReg (setActor exS7 0 exA5) exC none

theorem exStep1 : Step (Label.arrive exC "look") exS0 exS1 :=
  Step.arrive exS0 exC "look"

theorem exStep2 : Step (Label.fastMiss 0) exS1 exS2 :=
  Step.fastMiss exS1 0 { channel := exC, text := "look", pc := Pc.start } rfl rfl rfl

theorem exStep3 : Step (Label.create 0) exS2 exS3 :=
  Step.create exS2 0 { channel := exC, text := "look", pc := Pc.sawMiss } rfl rfl rfl

theorem exStep4 : Step (Label.arrive exC "go") exS3 exS4 :=
  Step.arrive exS3 exC "go"

theorem exStep5 : Step (Label.fastHit 1) exS4 exS5 :=
  Step.fastHit exS4 1 { channel := exC, text := "go", pc := Pc.start } 0 exA1
    rfl rfl rfl rfl (by decide) (by decide)

theorem exStep6 : Step (Label.process 0 false false) exS5 exS6 :=
  Step.process exS5 0 exA2 "look" ["go"] false false rfl rfl rfl

theorem exStep7 : Step (Label.timeout 0) exS6 exS7 :=
  Step.timeout exS6 0 exA3 rfl rfl

theorem exStep8 : Step (Label.drain 0) exS7 exS8 :=
  Step.drain exS7 0 exA4 rfl rfl

theorem exReach3 : Reach exS3 :=
  Reach.step (Reach.step (Reach.step (Reach.init exDisk0) exStep1) exStep2) exStep3

theorem exReach5 : Reach exS5 :=
  Reach.step (Reach.step exReach3 exStep4) exStep5

theorem exReach8 : Reach exS8 :=
  Reach.step (Reach.step (Reach.step exReach5 exStep6) exStep7) exStep8

/-! A second short run whose disk already holds a snapshot with counter 5
for channel 1: the creation branch still spawns the default state. -/

def exDiskSnap : ChannelId → Option (List Nat) :=
  fun c => if c = exC then some (encode { message_count := 5 }) else none

def exB0 : Sys := Sys.init exDiskSnap

def exB1 : Sys :=
  { exB0 with dispatches := exB0.dispatches ++ [{ channel := exC, text := "look", pc := Pc.start }] }

def exB2 : Sys := setDisp exB1 0 { channel := exC, text := "look", pc := Pc.sawMiss }

def exB3 : Sys :=
  setDisp (setReg { exB2 with actors := exB2.actors ++ [newActor exC "look"] } exC (some 0)) 0
    { channel := exC, text := "look", pc := Pc.done }

theorem exBStep3 : Step (Label.create 0) exB2 exB3 :=
  Step.create exB2 0 { channel := exC, text := "look", pc := Pc.sawMiss } rfl rfl rfl

theorem exBReach3 : Reach exB3 :=
  Reach.step
    (Reach.step
      (Reach.step (Reach.init exDiskSnap) (Step.arrive exB0 exC "look"))
      (Step.fastMiss exB1 0 { channel := exC, text := "look", pc := Pc.start } rfl rfl rfl))
    exBStep3

/-! ### Claim theorems -/

/-- C5: for every `GameData` value within the `u64` range, decoding the
encoding yields the value back: `decode (encode s) = ok s`. -/
theorem decode_encode_roundtrip : ∀ g : GameData, g.message_count < U64MOD →
    decode (encode g) = Except.ok g := by
  intro g h
  have hlen : (natToLE 8 g.message_count).length = 8 := natToLE_length 8 g.message_count
  have hpow : (256 : Nat) ^ 8 = U64MOD := by norm_num [U64MOD]
  have hval : leToNat (natToLE 8 g.message_count) = g.message_count :=
    leToNat_natToLE 8 g.message_count (by rw [hpow]; exact h)
  simp only [decode, encode, hlen]
  rw [if_neg (by omega)]
  rw [take_of_full_length _ _ (Nat.le_of_eq hlen)]
  rw [hval]

theorem decode_encode_roundtrip_instance :
    decode (encode { message_count := 7 }) = Except.ok { message_count := 7 } :=
  decode_encode_roundtrip { message_count := 7 } (by decide)

/-- C6: `process_input` is a pure function of the prior state that bumps
the counter by exactly one, returns the decimal rendering of the new
counter, and is independent of the input text. -/
theorem process_input_counter_spec : ∀ (g : GameData) (s t : String),
    g.message_count + 1 < U64MOD →
    (g.process_input s).1.message_count = g.message_count + 1 ∧
    (g.process_input s).2 = Nat.repr (g.message_count + 1) ∧
    g.process_input s = g.process_input t := by
  intro g s t h
  have hm : (g.message_count + 1) % U64MOD = g.message_count + 1 := Nat.mod_eq_of_lt h
  refine ⟨?_, ?_, rfl⟩
  · simp [GameData.process_input, hm]
  · simp [GameData.process_input, hm]

theorem process_input_counter_spec_instance :
    ({ message_count := 41 } : GameData).process_input "north" =
      ({ message_count := 41 } : GameData).process_input "south" :=
  (process_input_counter_spec { message_count := 41 } "north" "south" (by decide)).2.2

theorem room_id_eq_mk : ∀ (s : List Nat), s.length ≤ 4 → room_id s = mkRoomId (dotPad s) := by
  intro s h
  rcases s with _ | ⟨a, _ | ⟨b, _ | ⟨c, _ | ⟨d, _ | ⟨e, rest⟩⟩⟩⟩⟩
  · rfl
  · rfl
  · rfl
  · rfl
  · rfl
  · exfalso
    simp at h

/-- C9: `room_id` succeeds for every input of at most four bytes whose
dot-padded big-endian value is nonzero; it panics exactly on longer
inputs (`"input too long!"`) or on an all-zero padded value, which forces
a NUL byte in the input; and the `Default` `RoomID` is `room_id ""`. -/
theorem room_id_spec : ∀ s : List Nat,
    (s.length ≤ 4 → beBytesToNat (dotPad s) ≠ 0 →
      room_id s = Except.ok (beBytesToNat (dotPad s))) ∧
    (4 < s.length → room_id s = Except.error "input too long!") ∧
    (s.length ≤ 4 → beBytesToNat (dotPad s) = 0 →
      room_id s = Except.error "panicked" ∧ 0 ∈ s) ∧
    roomIdDefault = room_id [] := by
  intro s
  refine ⟨?_, ?_, ?_, rfl⟩
  · intro hlen hv
    rw [room_id_eq_mk s hlen]
    simp only [mkRoomId]
    rw [if_neg hv]
  · intro hlen
    rcases s with _ | ⟨a, _ | ⟨b, _ | ⟨c, _ | ⟨d, _ | ⟨e, rest⟩⟩⟩⟩⟩
    · simp at hlen
    · simp at hlen
    · simp at hlen
    · simp at hlen
    · simp at hlen
    · rfl
  · intro hlen h0
    refine ⟨?_, ?_⟩
    · rw [room_id_eq_mk s hlen]
      simp only [mkRoomId]
      rw [if_pos h0]
    · rcases s with _ | ⟨a, _ | ⟨b, _ | ⟨c, _ | ⟨d, _ | ⟨e, rest⟩⟩⟩⟩⟩
      · exact absurd h0 (by decide)
      · exfalso
        have hd : dotPad [a] = [a, 46, 46, 46] := rfl
        rw [hd] at h0
        simp only [beBytesToNat, List.foldl] at h0
        omega
      · exfalso
        have hd : dotPad [a, b] = [a, b, 46, 46] := rfl
        rw [hd] at h0
        simp only [beBytesToNat, List.foldl] at h0
        omega
      · exfalso
        have hd : dotPad [a, b, c] = [a, b, c, 46] := rfl
        rw [hd] at h0
        simp only [beBytesToNat, List.foldl] at h0
        omega
      · have hd : dotPad [a, b, c, d] = [a, b, c, d] := rfl
        rw [hd] at h0
        simp only [beBytesToNat, List.foldl] at h0
        have ha : a = 0 := by omega
        subst ha
        exact List.mem_cons_self 0 _
      · exfalso
        simp at hlen

theorem room_id_spec_instance :
    room_id [99, 95, 72, 56] = Except.ok (beBytesToNat (dotPad [99, 95, 72, 56])) ∧
    room_id [104, 101, 108, 108, 111] = Except.error "input too long!" :=
  ⟨(room_id_spec [99, 95, 72, 56]).1 (by decide) (by decide),
   (room_id_spec [104, 101, 108, 108, 111]).2.1 (by decide)⟩

/-- C10: the static `ROOM_DB` table is sorted (non-decreasing, consecutive
pairs) under the derived `Room` ordering and all its `RoomID`s are
pairwise distinct. -/
theorem room_db_wellformed :
    roomsSortedB ROOM_DB = true ∧ natsDistinctB (ROOM_DB.map Room.id) = true := by
  constructor
  · decide
  · decide

/-- C1: in every reachable state there is at most one live actor per
channel, the registry has an entry for a channel exactly when a live
actor serves it — and then the entry names exactly that actor — and the
`Entry::Vacant` creation step can only fire for a channel with no live
actor, so racing dispatches enqueue into the winner's entry instead of
spawning a second actor. -/
theorem registry_at_most_one_live_actor : ∀ s : Sys, Reach s →
    (∀ c j k, liveAt s j c → liveAt s k c → j = k) ∧
    (∀ c j, s.registry c = some j ↔ liveAt s j c) ∧
    (∀ i s', Step (Label.create i) s s' → ∀ d, s.dispatches.get? i = some d →
      ∀ j, ¬ liveAt s j d.channel) := by
  intro s hs
  have hI := inv_reach hs
  refine ⟨?_, hI.1, ?_⟩
  · intro c j k hj hk
    have h1 := (hI.1 c j).mpr hj
    have h2 := (hI.1 c k).mpr hk
    rw [h1] at h2
    exact Option.some.inj h2
  · intro i s' hstep d hd j hlive
    cases hstep with
    | create _ _ d' hd' hpc hr =>
      rw [hd] at hd'
      injection hd' with e
      have hreg := (hI.1 d.channel j).mpr hlive
      rw [e] at hreg
      rw [hr] at hreg
      exact Option.noConfusion hreg

theorem registry_at_most_one_live_actor_instance : liveAt exS3 0 exC :=
  ((registry_at_most_one_live_actor exS3 exReach3).2.1 exC 0).mp rfl

/-- C2: a drain step closes the mailbox (the actor terminates, after which
no enqueue step can target it), processes every buffered message in
arrival order with the per-message behaviour of the active loop
(`drainRun`), and removes the registry entry only once the mailbox is
empty; across every step the per-actor list `processed ++ mailbox` only
grows at the tail, so an accepted message is never dropped, and
terminated actors always have empty mailboxes.  The idle bound is the
constant 600 seconds. -/
theorem drain_preserves_accepted_messages :
    (∀ s s' aid, Step (Label.drain aid) s s' → ∀ a, s.actors.get? aid = some a →
      s'.actors.get? aid = some
        { a with
          mailbox := []
          processed := a.processed ++ a.mailbox
          outputs := a.outputs ++ (drainRun a.game a.mailbox).2
          game := (drainRun a.game a.mailbox).1
          status := Status.terminated } ∧
      s'.registry a.channel = none) ∧
    (∀ l s s' aid a b, Step l s s' → s.actors.get? aid = some a →
      s'.actors.get? aid = some b →
      ∃ tail, b.processed ++ b.mailbox = (a.processed ++ a.mailbox) ++ tail) ∧
    (∀ s, Reach s → ∀ aid a, s.actors.get? aid = some a →
      a.status = Status.terminated → a.mailbox = []) ∧
    TEN_MIN_SECS = 600 := by
  refine ⟨?_, ?_, ?_, rfl⟩
  · intro s s' aid hstep a ha
    cases hstep with
    | drain _ _ a0 ha0 hact =>
      rw [ha] at ha0
      injection ha0 with e
      subst e
      constructor
      · rw [setReg_actors, setActor_actors]
        exact lget_set_self _ _ _ (lget_some_lt _ _ _ ha)
      · rw [setReg_registry]
        rw [if_pos rfl]
  · intro l s s' aid a b hstep ha hb
    cases hstep with
    | arrive _ c t =>
      have hb2 : s.actors.get? aid = some b := hb
      rw [ha] at hb2
      injection hb2 with e
      subst e
      exact ⟨[], (List.append_nil _).symm⟩
    | fastHit _ _ d aid0 a0 hd hpc hr ha0 hopen hcap =>
      have hb2 : (s.actors.set aid0 { a0 with mailbox := a0.mailbox ++ [d.text] }).get? aid
          = some b := hb
      by_cases haid : aid = aid0
      · subst haid
        rw [lget_set_self _ _ _ (lget_some_lt _ _ _ ha0)] at hb2
        injection hb2 with e
        subst e
        rw [ha] at ha0
        injection ha0 with e0
        subst e0
        exact ⟨[d.text], (List.append_assoc _ _ _).symm⟩
      · rw [lget_set_ne _ _ _ _ haid] at hb2
        rw [ha] at hb2
        injection hb2 with e
        subst e
        exact ⟨[], (List.append_nil _).symm⟩
    | fastHitClosed _ _ d aid0 a0 hd hpc hr ha0 hclosed =>
      have hb2 : s.actors.get? aid = some b := hb
      rw [ha] at hb2
      injection hb2 with e
      subst e
      exact ⟨[], (List.append_nil _).symm⟩
    | fastMiss _ _ d hd hpc hr =>
      have hb2 : s.actors.get? aid = some b := hb
      rw [ha] at hb2
      injection hb2 with e
      subst e
      exact ⟨[], (List.append_nil _).symm⟩
    | writeHit _ _ d aid0 a0 hd hpc hr ha0 hopen hcap =>
      have hb2 : (s.actors.set aid0 { a0 with mailbox := a0.mailbox ++ [d.text] }).get? aid
          = some b := hb
      by_cases haid : aid = aid0
      · subst haid
        rw [lget_set_self _ _ _ (lget_some_lt _ _ _ ha0)] at hb2
        injection hb2 with e
        subst e
        rw [ha] at ha0
        injection ha0 with e0
        subst e0
        exact ⟨[d.text], (List.append_assoc _ _ _).symm⟩
      · rw [lget_set_ne _ _ _ _ haid] at hb2
        rw [ha] at hb2
        injection hb2 with e
        subst e
        exact ⟨[], (List.append_nil _).symm⟩
    | writeHitClosed _ _ d aid0 a0 hd hpc hr ha0 hclosed =>
      have hb2 : s.actors.get? aid = some b := hb
      rw [ha] at hb2
      injection hb2 with e
      subst e
      exact ⟨[], (List.append_nil _).symm⟩
    | create _ _ d hd hpc hr =>
      have hb2 : (s.actors ++ [newActor d.channel d.text]).get? aid = some b := hb
      rcases lget_append_cases _ _ _ _ hb2 with h1 | ⟨h2, h3⟩
      · rw [ha] at h1
        injection h1 with e
        subst e
        exact ⟨[], (List.append_nil _).symm⟩
      · exfalso
        have := lget_some_lt _ _ _ ha
        rw [h2] at this
        exact Nat.lt_irrefl _ this
    | process _ aid0 a0 m rest typingOk sayOk ha0 hact hmb =>
      have hb2 : (s.actors.set aid0
          { a0 with
            mailbox := rest
            processed := a0.processed ++ [m]
            outputs := a0.outputs ++ [(a0.game.process_input m).2]
            game := (a0.game.process_input m).1 }).get? aid = some b := hb
      by_cases haid : aid = aid0
      · subst haid
        rw [lget_set_self _ _ _ (lget_some_lt _ _ _ ha0)] at hb2
        injection hb2 with e
        subst e
        rw [ha] at ha0
        injection ha0 with e0
        subst e0
        refine ⟨[], ?_⟩
        show (a.processed ++ [m]) ++ rest = (a.processed ++ a.mailbox) ++ []
        rw [hmb, List.append_nil, List.append_assoc]
        rfl
      · rw [lget_set_ne _ _ _ _ haid] at hb2
        rw [ha] at hb2
        injection hb2 with e
        subst e
        exact ⟨[], (List.append_nil _).symm⟩
    | timeout _ aid0 a0 ha0 hact =>
      have hb2 : (s.actors.set aid0 { a0 with status := Status.pendingDrain }).get? aid
          = some b := hb
      by_cases haid : aid = aid0
      · subst haid
        rw [lget_set_self _ _ _ (lget_some_lt _ _ _ ha0)] at hb2
        injection hb2 with e
        subst e
        rw [ha] at ha0
        injection ha0 with e0
        subst e0
        exact ⟨[], (List.append_nil _).symm⟩
      · rw [lget_set_ne _ _ _ _ haid] at hb2
        rw [ha] at hb2
        injection hb2 with e
        subst e
        exact ⟨[], (List.append_nil _).symm⟩
    | drain _ aid0 a0 ha0 hact =>
      have hb2 : (s.actors.set aid0
          { a0 with
            mailbox := []
            processed := a0.processed ++ a0.mailbox
            outputs := a0.outputs ++ (drainRun a0.game a0.mailbox).2
            game := (drainRun a0.game a0.mailbox).1
            status := Status.terminated }).get? aid = some b := hb
      by_cases haid : aid = aid0
      · subst haid
        rw [lget_set_self _ _ _ (lget_some_lt _ _ _ ha0)] at hb2
        injection hb2 with e
        subst e
        rw [ha] at ha0
        injection ha0 with e0
        subst e0
        exact ⟨[], rfl⟩
      · rw [lget_set_ne _ _ _ _ haid] at hb2
        rw [ha] at hb2
        injection hb2 with e
        subst e
        exact ⟨[], (List.append_nil _).symm⟩
  · intro s hs aid a ha hterm
    exact (inv_reach hs).2.2 aid a ha hterm

theorem drain_preserves_accepted_messages_instance :
    exS8.actors.get? 0 = some exA5 ∧ exS8.registry exC = none :=
  drain_preserves_accepted_messages.1 exS7 exS8 0 exStep8 exA4 rfl

/-- C3 (code bug): in the concrete run the session for channel 1
terminates after processing `"look"` and `"go"` — its final counter is 2
and its registry entry is gone — yet the disk still holds nothing for the
channel: the shutdown path removes the entry but persists no snapshot
(line 145 of `discord_bot.rs` is only a `TODO` comment, and no transition
of the embedded system touches `disk`). -/
theorem session_exit_writes_no_snapshot :
    Reach exS8 ∧
    exS8.actors.get? 0 = some exA5 ∧
    exA5.status = Status.terminated ∧
    exA5.game.message_count = 2 ∧
    exS8.registry exC = none ∧
    exS8.disk exC = none :=
  ⟨exReach8, rfl, rfl, rfl, rfl, rfl⟩

/-- C4 (code bug): in the concrete run whose disk holds a snapshot that
decodes to counter 5 for channel 1, the `Entry::Vacant` creation branch
still spawns the session with the default (counter 0) state: line 106 of
`discord_bot.rs` is only a `TODO` comment and the initial state is
`GameData::default()` unconditionally, not the decoded snapshot. -/
theorem session_create_ignores_snapshot :
    Reach exB3 ∧
    decode ((exB3.disk exC).getD []) = Except.ok { message_count := 5 } ∧
    exB3.actors.get? 0 = some (newActor exC "look") ∧
    (newActor exC "look").game = GameData.default ∧
    GameData.default ≠ ({ message_count := 5 } : GameData) :=
  ⟨exBReach3, rfl, rfl, rfl, by decide⟩

/-- C7 counterexample: in `term_game.rs`, a snapshot-write failure during
per-message processing is fatal — `store_profile_bytes(..).unwrap()`
panics and the program ends — rather than being logged and survived. -/
theorem snapshot_write_failure_is_fatal :
    term_game_iteration { message_count := 0 } "hi" false = (LoopOutcome.panicked, "1") ∧
    term_game_iteration { message_count := 0 } "hi" true =
      (LoopOutcome.next { message_count := 1 }, "1") ∧
    LoopOutcome.panicked ≠ LoopOutcome.next { message_count := 1 } :=
  ⟨rfl, rfl, by decide⟩

/-- C7 (amended): inside the session actor's loop the two outbound I/O
calls (typing indicator and `say`) are fire-and-forget — the post-state
is the same whatever their outcomes and the actor stays active, so no
per-message I/O error ends the session; the actor persists nothing per
message, and in the terminal example a successful store continues the
loop while a store failure panics. -/
theorem actor_io_failure_nonfatal :
    (∀ s s' aid tOk sOk, Step (Label.process aid tOk sOk) s s' →
      (∀ tOk' sOk', Step (Label.process aid tOk' sOk') s s') ∧
      ∃ a, s'.actors.get? aid = some a ∧ a.status = Status.active) ∧
    (∀ (g : GameData) (inp : String),
      term_game_iteration g inp true =
        (LoopOutcome.next (g.process_input inp).1, (g.process_input inp).2) ∧
      term_game_iteration g inp false = (LoopOutcome.panicked, (g.process_input inp).2)) := by
  refine ⟨?_, ?_⟩
  · intro s s' aid tOk sOk h
    cases h with
    | process _ _ a m rest _ _ ha hact hmb =>
      refine ⟨fun tOk' sOk' => Step.process s aid a m rest tOk' sOk' ha hact hmb, ?_⟩
      refine ⟨{ a with
          mailbox := rest
          processed := a.processed ++ [m]
          outputs := a.outputs ++ [(a.game.process_input m).2]
          game := (a.game.process_input m).1 }, ?_, hact⟩
      rw [setActor_actors]
      exact lget_set_self _ _ _ (lget_some_lt _ _ _ ha)
  · intro g inp
    exact ⟨rfl, rfl⟩

theorem actor_io_failure_nonfatal_instance : Step (Label.process 0 true true) exS5 exS6 :=
  (actor_io_failure_nonfatal.1 exS5 exS6 0 false false exStep6).1 true true

/-- C8: every mailbox is created with `mpsc_channel(5)`, so in every
reachable state at most `MAILBOX_CAP = 5` messages are buffered per
channel; an enqueue step (either path) requires a free slot — a producer
facing a full mailbox has no enabled step and stays suspended with its
message intact — and appends at the tail of the FIFO list. -/
theorem mailbox_bounded_fifo :
    MAILBOX_CAP = 5 ∧
    (∀ s, Reach s → ∀ aid a, s.actors.get? aid = some a →
      a.mailbox.length ≤ MAILBOX_CAP) ∧
    (∀ s s' i, Step (Label.fastHit i) s s' ∨ Step (Label.writeHit i) s s' →
      ∃ d aid a, s.dispatches.get? i = some d ∧ s.registry d.channel = some aid ∧
        s.actors.get? aid = some a ∧ a.mailbox.length < MAILBOX_CAP ∧
        s' = setDisp (setActor s aid { a with mailbox := a.mailbox ++ [d.text] }) i
          { d with pc := Pc.done }) := by
  refine ⟨rfl, ?_, ?_⟩
  · intro s hs aid a ha
    exact (inv_reach hs).2.1 aid a ha
  · intro s s' i h
    rcases h with h | h
    · cases h with
      | fastHit _ _ d aid a hd hpc hr ha hopen hcap =>
        exact ⟨d, aid, a, hd, hr, ha, hcap, rfl⟩
    · cases h with
      | writeHit _ _ d aid a hd hpc hr ha hopen hcap =>
        exact ⟨d, aid, a, hd, hr, ha, hcap, rfl⟩

theorem mailbox_bounded_fifo_instance : exA1.mailbox.length ≤ MAILBOX_CAP :=
  mailbox_bounded_fifo.2.1 exS3 exReach3 0 exA1 rfl

end Rpg
